import Mathlib

set_option maxRecDepth 4000

/-!
Verification of the clippy forum-bot core (src/plugins/clippy.js): a shallow
embedding of the conversation-context assembly and response pipeline, with
theorems checking the specification's claims against the embedded code.

Conventions of the embedding:
* JS strings are Lean `String`s; machine details (UTF-16 vs UTF-8) do not
  matter for the properties below, which are about whole characters.
* The file system backing the per-topic instruction store is modelled as a
  map from topic id to an optional file body (`FileStore`); a read failure
  (missing file) is `none`, exactly the `try/catch` fallback in the source.
* External collaborators (HTML-to-markdown conversion, the completion
  service) are parameters of the pipeline, never stubbed to fixed values.
-/

/-- A chat message as built by the handler: `{role, name, content}`.
The system message is pushed without a `name` property, hence `Option`. -/
structure Message where
  role : String
  name : Option String
  content : String
deriving DecidableEq, Repr

/-- A forum post as consumed by the context loop: its raw content and the
resolved author username (`forum.User.get(p.authorId).username`). -/
structure ForumPost where
  content : String
  author : String
deriving DecidableEq, Repr

/-- The file system as seen by the instruction store: one optional file per
topic id (`system_message_<topic_id>.txt`). -/
structure FileStore where
  files : Nat → Option String

/-- A file system with no per-topic override written. -/
def emptyStore : FileStore := ⟨fun _ => none⟩

/-- `get_system_message(topic_id)`: `fs.readFileSync` of the per-topic file,
falling back to the process-wide default on any read error. -/
def get_system_message (st : FileStore) (default_sm : String) (topic_id : Nat) : String :=
  match st.files topic_id with
  | some s => s
  | none => default_sm

/-- `set_system_message(topic_id, message)`: `fs.writeFileSync` of the
per-topic file, fully replacing any previous contents. -/
def set_system_message (st : FileStore) (topic_id : Nat) (message : String) : FileStore :=
  ⟨fun t => if t = topic_id then some message else st.files t⟩

/-- `listStartsWith l pat`: `pat` is a prefix of `l`. -/
def listStartsWith : List Char → List Char → Bool
  | _, [] => true
  | [], _ :: _ => false
  | c :: cs, p :: ps => c == p && listStartsWith cs ps

/-- JS `s.split(sep)` generalized to a separator predicate: cut at every
separator character; `cur` is the current piece, reversed. Splitting the
empty string yields `[""]`, and a trailing separator yields a trailing
empty piece, as in JS. -/
def splitPred (p : Char → Bool) (cur : List Char) : List Char → List (List Char)
  | [] => [cur.reverse]
  | c :: cs => if p c then cur.reverse :: splitPred p [] cs else splitPred p (c :: cur) cs

/-- JS `s.split(sep)` for a one-character separator. -/
def splitChar (sep : Char) (l : List Char) : List (List Char) :=
  splitPred (fun c => c == sep) [] l

/-- `markdown.split('\n')`. -/
def splitLines (s : String) : List String :=
  (splitChar '\n' s.data).map String.mk

/-- `l.split(' ')`. -/
def splitSpaces (l : String) : List String :=
  (splitChar ' ' l.data).map String.mk

/-- JS `array.join(sep)` for a one-character separator. -/
def joinChar (sep : Char) : List (List Char) → List Char
  | [] => []
  | [x] => x
  | x :: y :: rest => x ++ sep :: joinChar sep (y :: rest)

/-- `text.join('\n')`. -/
def joinLines (ls : List String) : String :=
  String.mk (joinChar '\n' (ls.map String.data))

/-- JS `s.trim()`: drop whitespace from both ends. -/
def listTrim (l : List Char) : List Char :=
  ((l.dropWhile Char.isWhitespace).reverse.dropWhile Char.isWhitespace).reverse

/-- `listHasSub pat l`: `pat` occurs as a contiguous run inside `l`. -/
def listHasSub (pat : List Char) : List Char → Bool
  | [] => listStartsWith [] pat
  | c :: cs => listStartsWith (c :: cs) pat || listHasSub pat cs

/-- JS `s.includes(pat)`: substring occurrence test. -/
def strIncludes (s pat : String) : Bool :=
  listHasSub pat.data s.data

/-- `count_chars(messages)`: sum of the `content` lengths. -/
def count_chars : List Message → Nat
  | [] => 0
  | m :: ms => m.content.length + count_chars ms

/-- `limit_chars(messages, limit)`: drop messages from the front while the
total character count exceeds `limit` and more than 5 messages remain. -/
def limit_chars : List Message → Nat → List Message
  | [], _ => []
  | m :: ms, limit =>
    if count_chars (m :: ms) > limit ∧ (m :: ms).length > 5 then
      limit_chars ms limit
    else m :: ms

/-- The line classifier from the context loop:
`l.split(' ').some(word => word.startsWith('#'))`. -/
def isCommandLine (l : String) : Bool :=
  (splitSpaces l).any (fun word => listStartsWith word.data ['#'])

/-- Modelled from the spec: the spec's classification rule in section 4.2
uses "whitespace-delimited tokens", i.e. splits a line at every whitespace
character, where the source splits only at the single space character.
This definition follows the spec's words, for comparison with
`isCommandLine`. -/
def isDirectiveLine_spec (l : String) : Bool :=
  (splitPred Char.isWhitespace [] l.data).any (fun word => listStartsWith word ['#'])

/-- The `lines.forEach` loop: push each line onto `commands` or `text`.
Result: `(commands, text)` in original order. -/
def classifyLines (lines : List String) : List String × List String :=
  lines.foldl
    (fun acc l =>
      if isCommandLine l then (acc.1 ++ [l], acc.2) else (acc.1, acc.2 ++ [l]))
    ([], [])

/-- `c.includes("#clearcontext")`. -/
def isClearContext (c : String) : Bool :=
  strIncludes c "#clearcontext"

/-- The backtracking step of `(.*)\)` in `/#system_message ?\((.*)\)/`:
the greedy `.*` captures everything up to the last `)` of the remainder,
or fails when no `)` remains. -/
def captureUpToLastParen (inner : List Char) : Option (List Char) :=
  match inner.reverse.dropWhile (fun c => !(c == ')')) with
  | [] => none
  | _ :: rest => some rest.reverse

/-- Attempt of `/#system_message ?\((.*)\)/` at one occurrence of the
literal `#system_message`, given the remainder of the line after it:
the greedy ` ?` first consumes a space when one precedes `(`. -/
def tryMatchAt (rest : List Char) : Option (List Char) :=
  if listStartsWith rest [' ', '('] then captureUpToLastParen (rest.drop 2)
  else if listStartsWith rest ['('] then captureUpToLastParen (rest.drop 1)
  else none

/-- Scan the start positions of the line left to right, as the regex
engine does: at each occurrence of the literal `#system_message` try the
rest of the pattern, returning the first successful capture. The literal
cannot overlap itself, so moving one character on failure is the engine's
behavior. -/
def findSMAux : List Char → Option (List Char)
  | [] => none
  | c :: cs =>
    if listStartsWith (c :: cs) "#system_message".data then
      match tryMatchAt ((c :: cs).drop 15) with
      | some cap => some cap
      | none => findSMAux cs
    else findSMAux cs

/-- `c.match(/#system_message ?\((.*)\)/)`, returning the first capture
group of the leftmost match, if any. -/
def findSystemMessageArg (c : String) : Option String :=
  (findSMAux c.data).map String.mk

/-- The character class `[a-zA-Z0-9_-]` of the author-name sanitizer. -/
def isNameChar (c : Char) : Bool :=
  c.isAlpha || c.isDigit || c == '_' || c == '-'

/-- `p.author.replace(/[^a-zA-Z0-9_-]/g, '').substring(0, 64)`, then the
fallback to `'user'` when the result is empty. -/
def sanitizeName (author : String) : String :=
  let cleaned : String := String.mk ((author.data.filter isNameChar).take 64)
  if cleaned.length = 0 then "user" else cleaned

/-- `sanitizedName.toLowerCase().trim() == 'clippy' ? 'assistant' : 'user'`. -/
def roleFor (author : String) : String :=
  if listTrim ((sanitizeName author).data.map Char.toLower) = "clippy".data
  then "assistant" else "user"

/-- One iteration of the `for (const c of commands)` loop: `#clearcontext`
empties the accumulated messages; a `#system_message(...)` match writes the
per-topic instruction file. The two tests are independent. -/
def applyCommand (topic : Nat) (acc : List Message × FileStore) (c : String) :
    List Message × FileStore :=
  ( if isClearContext c then [] else acc.1,
    match findSystemMessageArg c with
    | some arg => set_system_message acc.2 topic arg
    | none => acc.2 )

/-- One iteration of the `for (const p of contextPosts)` loop: convert the
post to markdown, classify its lines, append a prose message when the prose
is non-empty after trimming, then run the directive loop. -/
def processPost (topic : Nat) (convert : String → String)
    (acc : List Message × FileStore) (p : ForumPost) : List Message × FileStore :=
  (classifyLines (splitLines (convert p.content))).1.foldl (applyCommand topic)
    ( (if 0 < (listTrim (joinLines
            (classifyLines (splitLines (convert p.content))).2).data).length then
        acc.1 ++ [⟨roleFor p.author, some (sanitizeName p.author),
          joinLines (classifyLines (splitLines (convert p.content))).2⟩]
      else acc.1),
      acc.2 )

/-- The whole context-collection loop over the topic's recent posts, in
chronological walk order, starting from an empty accumulator. -/
def collectMessages (topic : Nat) (convert : String → String)
    (posts : List ForumPost) (st : FileStore) : List Message × FileStore :=
  posts.foldl (processPost topic convert) ([], st)

/-- The regex word class `\w` = `[A-Za-z0-9_]`; `\W` is its negation. -/
def isWordChar (c : Char) : Bool :=
  c.isAlpha || c.isDigit || c == '_'

/-- The mention-identifier class `[a-zA-Z0-9_-]` of `removeMentions`. -/
def isMentionChar (c : Char) : Bool :=
  c.isAlpha || c.isDigit || c == '_' || c == '-'

/-- Greedy `[a-zA-Z0-9_-]{0,n}`: take up to `n` leading identifier
characters, returning them and the remainder. -/
def takeMention : Nat → List Char → List Char × List Char
  | _, [] => ([], [])
  | 0, c :: cs => ([], c :: cs)
  | n + 1, c :: cs =>
    if isMentionChar c then
      (c :: (takeMention n cs).1, (takeMention n cs).2)
    else ([], c :: cs)

/-- Match of `@[a-zA-Z0-9_-]{1,64}` (the second capture group of the
`removeMentions` regex) at the head of the list: on success, the matched
characters and the remainder. -/
def tryMention : List Char → Option (List Char × List Char)
  | [] => none
  | c :: cs =>
    if c = '@' ∧ (takeMention 64 cs).1 ≠ [] then
      some (c :: (takeMention 64 cs).1, (takeMention 64 cs).2)
    else none

/-- The global scan of `content.replace(/(^|\W)(@[a-zA-Z0-9_-]{1,64})/g,
'$1$2')`. At the start of the string the `^` alternative of group 1 is
tried first (group 1 empty); elsewhere, and as fallback, group 1 is a
single `\W` character preceding the `@`. Each match is replaced by
`$1$2`, i.e. by the concatenation of the two captured groups, and the
scan resumes after the match. `fuel` bounds the recursion; one character
at least is consumed per step, so `l.length` fuel is always enough, and
a step with no fuel returns the remainder unchanged. -/
def rmGo : Nat → Bool → List Char → List Char
  | 0, _, l => l
  | _ + 1, _, [] => []
  | fuel + 1, atStart, c :: cs =>
    match (if atStart then tryMention (c :: cs) else none) with
    | some p => p.1 ++ rmGo fuel false p.2
    | none =>
      if isWordChar c then c :: rmGo fuel false cs
      else
        match tryMention cs with
        | some p => c :: (p.1 ++ rmGo fuel false p.2)
        | none => c :: rmGo fuel false cs

/-- `removeMentions(content)`: the mention-rewriting pass applied to the
generated reply before posting. -/
def removeMentions (content : String) : String :=
  String.mk (rmGo content.data.length true content.data)

/-- After the leading `<|` of the trailing-tag regex `/<\|.*\|>$/`, the
remainder must be a run of non-line-break characters ended by `|>` at the
very end of the string. -/
def tagBody (cs : List Char) : Bool :=
  match cs.reverse with
  | '>' :: '|' :: body => body.all (fun c => !(c == '\n' || c == '\r'))
  | _ => false

/-- Whether `/<\|.*\|>$/` matches starting exactly here. -/
def matchTagAt : List Char → Bool
  | '<' :: '|' :: rest => tagBody rest
  | _ => false

/-- Leftmost-match scan of the single (non-global) replacement
`content.replace(/<\|.*\|>$/, '')`: the match always extends to the end
of the string, so it is simply deleted. -/
def stripGo : List Char → List Char
  | [] => []
  | c :: cs => if matchTagAt (c :: cs) then [] else c :: stripGo cs

/-- The post-processing of the completion response in `generateContent`:
strip a trailing `<|...|>` sentinel. -/
def stripTrailingTag (s : String) : String :=
  String.mk (stripGo s.data)

/-- The tail of `generateContent`, given the extracted
`jsonData.choices[0].message?.content` (`none` models an absent field):
a truthy content is returned with the trailing sentinel stripped, a falsy
one (absent, or the empty string) is returned as it is. -/
def generateContent (raw : Option String) : Option String :=
  match raw with
  | some content => if content.length > 0 then some (stripTrailingTag content) else some content
  | none => none

/-- The constant appended after the per-topic instruction when building
the system message (template literal `system_message_complement`). -/
def system_message_complement : String :=
  "\nYou're talking in a forum, and your answers should follow the markdown format, without any links or images.\nAll usernames are prefixed with an '@' character.\n\nYour username in the forum is 'clippy'."

/-- `format_system_message(topic_id)`: the system message object. It is
built after the context walk, so it reads the store the walk produced. -/
def format_system_message (st : FileStore) (default_sm : String) (topic_id : Nat) : Message :=
  ⟨"system", none, get_system_message st default_sm topic_id ++ "\n" ++ system_message_complement⟩

/-- Everything one mention-notification run reads from the outside world:
the notification's topic, the triggering post's content, the topic's
recent posts, the file system, the startup default instruction, the
configured character limit, the HTML-to-markdown converter, and the
completion service (mapping the sent message list to the content field of
the first choice of its response, `none` when absent). -/
structure HandlerEnv where
  topicId : Nat
  postContent : String
  posts : List ForumPost
  store : FileStore
  default_sm : String
  character_limit : Nat
  convert : String → String
  complete : List Message → Option String

/-- The file-system state after the context walk of a run. -/
def collectedStore (env : HandlerEnv) : FileStore :=
  (collectMessages env.topicId env.convert env.posts env.store).2

/-- The message list the run sends to the completion service: the
budgeted context with the resolved system message unshifted in front. -/
def contextMessages (env : HandlerEnv) : List Message :=
  format_system_message (collectedStore env) env.default_sm env.topicId
    :: limit_chars (collectMessages env.topicId env.convert env.posts env.store).1 env.character_limit

/-- What a run does at its end: post a reply with the given text, or end
silently with no reply and no error. Transport failures (fetch errors,
exceptions) abort a run before either point and are outside this pure
model. -/
inductive Outcome where
  | reply (text : String)
  | silent
deriving DecidableEq, Repr

/-- The handler pipeline for one mention notification, as the triple
(outcome, whether the completion service was called, final file-system
state). The `#show_system_message` diagnostic short-circuits before the
context walk; an empty or absent completion result ends the run silently;
otherwise the response is passed through `removeMentions` and posted. -/
def handler (env : HandlerEnv) : Outcome × Bool × FileStore :=
  if strIncludes env.postContent "#show_system_message" then
    (Outcome.reply ("#" ++ get_system_message env.store env.default_sm env.topicId),
      false, env.store)
  else
    match generateContent (env.complete (contextMessages env)) with
    | none => (Outcome.silent, true, collectedStore env)
    | some response =>
      if response.length = 0 then (Outcome.silent, true, collectedStore env)
      else (Outcome.reply (removeMentions response), true, collectedStore env)

/-- A message of 10,000 characters of prose, for the budgeting scenario. -/
def bigMsg : Message :=
  ⟨"user", some "u", String.mk (List.replicate 10000 'a')⟩

theorem count_chars_cons (m : Message) (ms : List Message) :
    count_chars (m :: ms) = m.content.length + count_chars ms := rfl

theorem bigMsg_content_length : bigMsg.content.length = 10000 := by
  rw [show bigMsg.content = String.mk (List.replicate 10000 'a') from rfl,
    String.length_mk, List.length_replicate]

theorem count_chars_replicate_big (n : Nat) :
    count_chars (List.replicate n bigMsg) = n * 10000 := by
  induction n with
  | zero => rfl
  | succ k ih =>
    rw [List.replicate_succ, count_chars_cons, ih, bigMsg_content_length]
    ring

/-- Once the loop guard of `limit_chars` is false, the list is returned
unchanged. -/
theorem limit_chars_of_not_guard (ms : List Message) (limit : Nat)
    (h : ¬(count_chars ms > limit ∧ ms.length > 5)) :
    limit_chars ms limit = ms := by
  cases ms with
  | nil => rfl
  | cons m ms => rw [limit_chars, if_neg h]

/-- The loop guard of `limit_chars` is false on its result. -/
theorem limit_chars_guard_false (ms : List Message) (limit : Nat) :
    ¬(count_chars (limit_chars ms limit) > limit ∧ (limit_chars ms limit).length > 5) := by
  induction ms with
  | nil => simp [limit_chars, count_chars]
  | cons m ms ih =>
    rw [limit_chars]
    split
    · exact ih
    · next h => exact h

/-- C3: the context budgeter never reduces the list below 5 messages
regardless of total character volume; in particular, for 6 input messages
of 10,000 characters each with budget max 25,000, exactly the 5 newest
messages remain, totalling 50,000 characters. -/
theorem limit_chars_min_floor :
    (∀ (ms : List Message) (limit : Nat), min ms.length 5 ≤ (limit_chars ms limit).length)
    ∧ limit_chars (List.replicate 6 bigMsg) 25000 = List.replicate 5 bigMsg
    ∧ count_chars (List.replicate 5 bigMsg) = 50000 := by
  refine ⟨?_, ?_, ?_⟩
  · intro ms limit
    induction ms with
    | nil => simp [limit_chars]
    | cons m ms ih =>
      rw [limit_chars]
      split
      · next h =>
        have h2 := h.2
        simp only [List.length_cons] at h2 ⊢
        omega
      · simp
  · have hc : count_chars (bigMsg :: List.replicate 5 bigMsg) = 60000 := by
      rw [← List.replicate_succ, count_chars_replicate_big]
    rw [show List.replicate 6 bigMsg = bigMsg :: List.replicate 5 bigMsg from rfl,
      limit_chars, if_pos]
    · exact limit_chars_of_not_guard _ _ (by
        rw [count_chars_replicate_big, List.length_replicate]
        omega)
    · constructor
      · rw [hc]; omega
      · simp
  · rw [count_chars_replicate_big]

/-- C9: the context budgeter is idempotent — applying `limit_chars` twice
in a row yields the same list as applying it once. -/
theorem limit_chars_idempotent :
    ∀ (ms : List Message) (limit : Nat),
      limit_chars (limit_chars ms limit) limit = limit_chars ms limit :=
  fun ms limit => limit_chars_of_not_guard _ _ (limit_chars_guard_false ms limit)

/-- C6: reading the instruction of a never-written topic yields exactly
the process-wide default (a missing override is a fallback, not an
error), and reading right after `set_system_message topic X` yields
exactly `X`. -/
theorem store_get_default_and_set (st : FileStore) (d : String) (topic : Nat) (X : String)
    (h : st.files topic = none) :
    get_system_message st d topic = d
    ∧ get_system_message (set_system_message st topic X) d topic = X := by
  constructor
  · rw [get_system_message, h]
  · rw [get_system_message, set_system_message]
    simp

/-- Witness for C6 at a concrete topic and override. -/
theorem store_get_default_and_set_witness :
    get_system_message emptyStore "default instructions" 7 = "default instructions"
    ∧ get_system_message (set_system_message emptyStore 7 "Be terse.") "default instructions" 7
        = "Be terse." :=
  store_get_default_and_set emptyStore "default instructions" 7 "Be terse." rfl

theorem classifyLines_foldl (lines : List String) (cs ts : List String) :
    lines.foldl
      (fun acc l =>
        if isCommandLine l then (acc.1 ++ [l], acc.2) else (acc.1, acc.2 ++ [l]))
      (cs, ts)
      = (cs ++ lines.filter (fun l => isCommandLine l),
         ts ++ lines.filter (fun l => !isCommandLine l)) := by
  induction lines generalizing cs ts with
  | nil => simp
  | cons l ls ih =>
    rw [List.foldl_cons]
    by_cases h : isCommandLine l = true
    · simp [h, ih]
    · simp only [Bool.not_eq_true] at h
      simp [h, ih]

theorem classifyLines_eq (lines : List String) :
    classifyLines lines
      = (lines.filter (fun l => isCommandLine l),
         lines.filter (fun l => !isCommandLine l)) := by
  rw [classifyLines, classifyLines_foldl]
  simp

/-- C4 (amended): each line of a block is classified as exactly one of
prose or directive; it goes to the directive side iff at least one of its
space-delimited tokens (the single space character, as the source splits)
starts with `#`; the prose side keeps exactly the non-directive lines in
their original order, so rejoining them with newlines reproduces the
prose-only content. -/
theorem lines_partition (block : String) :
    (classifyLines (splitLines block)).1
        = (splitLines block).filter (fun l => isCommandLine l)
    ∧ (classifyLines (splitLines block)).2
        = (splitLines block).filter (fun l => !isCommandLine l)
    ∧ joinLines (classifyLines (splitLines block)).2
        = joinLines ((splitLines block).filter (fun l => !isCommandLine l)) := by
  rw [classifyLines_eq]
  exact ⟨rfl, rfl, rfl⟩

/-- Counterexample to C4 as stated: on the line `"a\t#x"` the source's
classifier (split at single spaces) sees one token `"a\t#x"` and calls
the line prose, while the spec's whitespace-delimited rule sees the token
`"#x"` and calls it a directive. -/
theorem lines_partition_counterexample :
    isCommandLine "a\t#x" = false ∧ isDirectiveLine_spec "a\t#x" = true := by
  constructor <;> decide

theorem foldl_applyCommand_fst (topic : Nat) (cs : List String)
    (msgs : List Message) (st : FileStore) :
    (cs.foldl (applyCommand topic) (msgs, st)).1
      = if cs.any (fun c => isClearContext c) then [] else msgs := by
  induction cs generalizing msgs st with
  | nil => simp
  | cons c cs ih =>
    rw [List.foldl_cons, List.any_cons]
    by_cases h : isClearContext c = true
    · rw [applyCommand, if_pos h, ih]
      simp [h]
    · simp only [Bool.not_eq_true] at h
      rw [applyCommand, if_neg (by simp [h]), ih]
      simp [h]

/-- When any directive line of a post contains `#clearcontext`, that
post's directive loop leaves the message accumulator empty, whatever was
accumulated before and whatever prose the post itself contributed. -/
theorem processPost_clear (topic : Nat) (convert : String → String)
    (acc : List Message × FileStore) (p : ForumPost)
    (h : ((classifyLines (splitLines (convert p.content))).1).any
        (fun c => isClearContext c) = true) :
    (processPost topic convert acc p).1 = [] := by
  rw [processPost, foldl_applyCommand_fst, if_pos h]

/-- C1 (amended): walking the posts in chronological order, a
`#clearcontext` directive on the final post removes every accumulated
message — those of all earlier posts and also the clearing post's own
prose-derived message, since the source appends the post's message before
running its directive loop. -/
theorem clear_directive_removes_all (topic : Nat) (convert : String → String)
    (prior : List ForumPost) (p : ForumPost) (st : FileStore)
    (h : ((classifyLines (splitLines (convert p.content))).1).any
        (fun c => isClearContext c) = true) :
    (collectMessages topic convert (prior ++ [p]) st).1 = [] := by
  rw [collectMessages, List.foldl_append, List.foldl_cons, List.foldl_nil]
  exact processPost_clear topic convert _ p h

/-- Witness for C1 (amended): one prior prose post, then a post carrying
both prose (`"hi"`) and a `#clearcontext` line; the collected context is
empty. -/
theorem clear_directive_removes_all_witness :
    ((classifyLines (splitLines (id (ForumPost.mk "hi\n#clearcontext" "bob").content))).1).any
        (fun c => isClearContext c) = true
    ∧ (collectMessages 1 id
        ([ForumPost.mk "hello" "alice"] ++ [ForumPost.mk "hi\n#clearcontext" "bob"])
        emptyStore).1 = [] :=
  ⟨by decide,
    clear_directive_removes_all 1 id [ForumPost.mk "hello" "alice"]
      (ForumPost.mk "hi\n#clearcontext" "bob") emptyStore (by decide)⟩

/-- Counterexample to C1 as stated: a single post whose prose (`"hi"`) is
non-empty and which also carries a `#clearcontext` line. The claim says
the post's own prose-derived message always survives the clear, but the
collected context comes out empty. -/
theorem clear_directive_counterexample :
    0 < (listTrim (joinLines
        (classifyLines (splitLines ("hi\n#clearcontext" : String))).2).data).length
    ∧ (collectMessages 1 id [ForumPost.mk "hi\n#clearcontext" "bob"] emptyStore).1 = [] := by
  constructor <;> decide

/-- C5 (amended): the two directive tests of the command loop are
independent, so a single line may match both kinds, and then both effects
are applied: the line `"#clearcontext #system_message(hi)"` empties the
accumulated messages and writes the instruction override, from every
starting state. -/
theorem directive_line_both_kinds (topic : Nat) (msgs : List Message) (st : FileStore) :
    isClearContext "#clearcontext #system_message(hi)" = true
    ∧ findSystemMessageArg "#clearcontext #system_message(hi)" = some "hi"
    ∧ applyCommand topic (msgs, st) "#clearcontext #system_message(hi)"
        = ([], set_system_message st topic "hi") := by
  refine ⟨by decide, by decide, ?_⟩
  rw [applyCommand, if_pos (by decide),
    show findSystemMessageArg "#clearcontext #system_message(hi)" = some "hi" from by decide]

/-- Counterexample to C5 as stated: a post consisting of the single line
`"#clearcontext #system_message(hi)"` makes the directive loop apply both
kinds — the previously accumulated message list is emptied and the
topic's instruction override is written in the same iteration. -/
theorem directive_line_both_kinds_counterexample :
    (processPost 1 id ([⟨"user", some "alice", "hello"⟩], emptyStore)
        (ForumPost.mk "#clearcontext #system_message(hi)" "bob")).1 = []
    ∧ ((processPost 1 id ([⟨"user", some "alice", "hello"⟩], emptyStore)
        (ForumPost.mk "#clearcontext #system_message(hi)" "bob")).2).files 1 = some "hi" := by
  constructor <;> decide

/-- C2 at a failing input: the reply rewriter leaves the at-mention
`@alice` fully intact — the `'$1$2'` replacement of `removeMentions`
reinserts exactly the matched text, so nothing about a mention is defused
before the reply is posted. -/
theorem removeMentions_leaves_mention_intact :
    removeMentions "@alice hello" = "@alice hello" := by decide

theorem takeMention_append (n : Nat) (cs : List Char) :
    (takeMention n cs).1 ++ (takeMention n cs).2 = cs := by
  induction cs generalizing n with
  | nil => cases n <;> rfl
  | cons c cs ih =>
    cases n with
    | zero => rfl
    | succ n =>
      simp only [takeMention]
      split
      · simp [ih]
      · simp

theorem tryMention_append {l : List Char} {p : List Char × List Char}
    (h : tryMention l = some p) : p.1 ++ p.2 = l := by
  cases l with
  | nil => simp [tryMention] at h
  | cons c cs =>
    rw [tryMention] at h
    split at h
    · cases h
      simp [takeMention_append]
    · simp at h

/-- Every pass of the global-replace scan reassembles its input: each
match is replaced by the concatenation of its own two capture groups. -/
theorem rmGo_id (fuel : Nat) : ∀ (b : Bool) (l : List Char), rmGo fuel b l = l := by
  induction fuel with
  | zero => intro b l; rfl
  | succ n ih =>
    intro b l
    cases l with
    | nil => rfl
    | cons c cs =>
      rw [rmGo]
      split
      · next p hp =>
        have hp' : tryMention (c :: cs) = some p := by
          cases b
          · simp at hp
          · simpa using hp
        rw [ih, tryMention_append hp']
      · by_cases hw : isWordChar c = true
        · rw [if_pos hw, ih]
        · rw [if_neg hw]
          split
          · next p hp2 => rw [ih, tryMention_append hp2]
          · rw [ih]

/-- C10: `removeMentions` is the identity on every string — its regex
replacement `'$1$2'` reassembles exactly the matched text, so a generated
reply containing at-mentions is posted character-for-character
unchanged. -/
theorem removeMentions_identity (s : String) : removeMentions s = s := by
  rw [removeMentions, rmGo_id]

/-- C7: when the triggering post's content is exactly the diagnostic
marker `#show_system_message`, the handler replies with the currently
stored instruction text prefixed by the marker character `#`, makes no
completion-service call, and skips the context walk entirely. -/
theorem show_system_message_short_circuit (env : HandlerEnv)
    (h : env.postContent = "#show_system_message") :
    handler env
      = (Outcome.reply ("#" ++ get_system_message env.store env.default_sm env.topicId),
          false, env.store) := by
  rw [handler, if_pos (by rw [h]; decide)]

/-- A run whose triggering post is exactly the diagnostic marker, with a
stored override and a completion service that would answer. -/
def envShow : HandlerEnv :=
  ⟨1, "#show_system_message", [], set_system_message emptyStore 1 "be nice", "d",
    25000, id, fun _ => some "resp"⟩

/-- Witness for C7: on `envShow` the reply is `#` followed by the stored
override, and the completion flag is `false`. -/
theorem show_system_message_short_circuit_witness :
    envShow.postContent = "#show_system_message"
    ∧ handler envShow
        = (Outcome.reply ("#" ++ get_system_message envShow.store envShow.default_sm envShow.topicId),
            false, envShow.store) :=
  ⟨rfl, show_system_message_short_circuit envShow rfl⟩

/-- C8: a run that is not the diagnostic short-circuit and whose
completion service yields an absent or empty content field ends silently:
no reply is posted, and nothing on this path raises an error. -/
theorem empty_completion_silent (env : HandlerEnv)
    (h1 : strIncludes env.postContent "#show_system_message" = false)
    (h2 : env.complete (contextMessages env) = none
        ∨ env.complete (contextMessages env) = some "") :
    (handler env).1 = Outcome.silent := by
  rw [handler, if_neg (by rw [h1]; exact Bool.false_ne_true)]
  rcases h2 with h2 | h2 <;> rw [h2] <;> simp [generateContent]

/-- A run mentioning the bot with an ordinary post and a completion
service whose response carries no content field. -/
def envSilent : HandlerEnv :=
  ⟨1, "hello clippy", [⟨"hello", "alice"⟩], emptyStore, "d", 25000, id, fun _ => none⟩

/-- Witness for C8: on `envSilent` the completion result is absent and
the run ends silently. -/
theorem empty_completion_silent_witness :
    strIncludes envSilent.postContent "#show_system_message" = false
    ∧ (envSilent.complete (contextMessages envSilent) = none
        ∨ envSilent.complete (contextMessages envSilent) = some "")
    ∧ (handler envSilent).1 = Outcome.silent :=
  ⟨by decide, Or.inl rfl,
    empty_completion_silent envSilent (by decide) (Or.inl rfl)⟩
